import Mathlib

/-!
Shallow embedding of `pywinkrelayintercom` (files `winkrelayintercom.py` and
`upnp.py`) for checking the natural-language specification.

Modelling conventions:
* Python `bytes` values are `List Nat` (each entry a byte value).
* Python `str` values handled character-wise are `List Char`.
* The UDP socket is modelled by recording the sequence of datagrams
  (`Packet`) that `socket.sendto` would emit, in order.
* Temporary files are modelled by their contents plus the current read
  position of the file object (`Staged`), because `send_audio` writes the
  in-memory `data` argument to a `NamedTemporaryFile` without seeking back
  to the start before reading it.
* The external audio-conversion collaborator (pydub / ffmpeg) and the
  filesystem are environment parameters (`Env`): deterministic functions
  supplied from outside, as the spec treats them as external collaborators.
* Exceptions are explicit: an operation either returns, logs-and-returns
  (`Outcome.loggedReturn`), or raises an uncaught exception
  (`Outcome.raised`).
-/

/-- `UDP_PORT = 10444` (winkrelayintercom.py line 13). -/
def UDP_PORT : Nat := 10444

/-- `bytes(MESSAGE_START, "utf-8")` where `MESSAGE_START = "\x7f"`:
a single byte 0x7f (lines 14 and 130). -/
def MESSAGE_START : List Nat := [0x7f]

/-- `MESSAGE_END = b'\x80'`: a single byte 0x80 (line 15). -/
def MESSAGE_END : List Nat := [0x80]

/-- `bytes(NULL_PACKET, "utf-8")` where `NULL_PACKET = "\x00" * 320`:
320 zero bytes (lines 16, 133, 154). -/
def NULL_PACKET : List Nat := List.replicate 320 0

/-- Lines 139-142: if the chunk read from the output stream is not exactly
320 bytes, append `b"\x00"` times `320 - len` (for a 320-byte chunk the
multiplier path is skipped and the chunk is sent as is). -/
def padTo320 (p : List Nat) : List Nat :=
  if p.length ≠ 320 then p ++ List.replicate (320 - p.length) 0 else p

/-- The successive `read(320)` chunks of a byte stream, as produced by the
`while _packet:` loop of `send_audio` (lines 136-151): the loop body runs
once per non-empty chunk and stops at the first empty read.  Structural
recursion on a fuel argument; every call site passes the stream length,
which is always enough fuel because each iteration consumes at least one
byte, so the `(0, _ :: _)` branch is unreachable there. -/
def chunksAux : Nat → List Nat → List (List Nat)
  | _, [] => []
  | 0, _ :: _ => []
  | fuel + 1, x :: xs =>
    (List.take 320 (x :: xs)) :: chunksAux fuel (List.drop 320 (x :: xs))

/-- The chunk sequence the `while _packet:` loop reads from a stream. -/
def chunks320 (l : List Nat) : List (List Nat) := chunksAux l.length l

/-- The streaming loop of `send_audio` (lines 136-151): for each chunk it
sends the padded 320-byte frame and then sleeps; `packet_count` starts at 0
and the sleep after the frame with count `c` is 20 ms when `c % 100 == 0`
and 10 ms otherwise.  Each list entry is `(padded frame, delay in ms)`.
Fuel as in `chunksAux`. -/
def streamLoopAux : Nat → List Nat → Nat → List (List Nat × Nat)
  | _, [], _ => []
  | 0, _ :: _, _ => []
  | fuel + 1, x :: xs, c =>
    (padTo320 (List.take 320 (x :: xs)), if c % 100 = 0 then 20 else 10)
      :: streamLoopAux fuel (List.drop 320 (x :: xs)) (c + 1)

/-- The `(frame, delay)` sequence of the streaming loop on a stream. -/
def streamLoop (l : List Nat) (c : Nat) : List (List Nat × Nat) :=
  streamLoopAux l.length l c

/-- The audio frames actually emitted by the streaming loop for a given
output stream. -/
def audioFrames (src : List Nat) : List (List Nat) :=
  (streamLoop src 0).map Prod.fst

/-- Number of frames the streaming loop sends for a given output stream. -/
def numFrames (src : List Nat) : Nat := (chunks320 src).length

/-- One UDP datagram as passed to `socket.sendto`. -/
structure Packet where
  payload : List Nat
  destAddr : Nat
  destPort : Nat
deriving DecidableEq, Repr

/-- `sendto(payload, (self.bcast_addr, UDP_PORT))`. -/
def mkPacket (bcast : Nat) (payload : List Nat) : Packet :=
  ⟨payload, bcast, UDP_PORT⟩

/-- The full wire sequence of `send_audio` once the output stream is ready
(lines 129-161): 1 START, 15 NULL packets, the padded audio frames, 10 NULL
packets, 3 END markers, all to `(bcast_addr, UDP_PORT)`. -/
def wireSequence (bcast : Nat) (frames : List (List Nat)) : List Packet :=
  [mkPacket bcast MESSAGE_START] ++
  List.replicate 15 (mkPacket bcast NULL_PACKET) ++
  frames.map (mkPacket bcast) ++
  List.replicate 10 (mkPacket bcast NULL_PACKET) ++
  List.replicate 3 (mkPacket bcast MESSAGE_END)

/-- How a call to `send_audio` ends: a logged error with a normal return,
an uncaught Python exception, or normal completion. -/
inductive Outcome
  | loggedReturn (msg : String)
  | raised (exn : String)
  | completed
deriving DecidableEq, Repr

/-- `True` exactly for the log-and-return outcomes. -/
def Outcome.isLoggedReturn : Outcome → Bool
  | .loggedReturn _ => true
  | _ => false

/-- What `open(filename, "rb")` can do in the model: raise `ValueError`
(the only exception `send_audio` catches, line 101), raise some other
`OSError` such as `FileNotFoundError`, or return the file contents. -/
inductive OpenErr
  | valueError
  | osError
deriving DecidableEq, Repr

/-- External world of `send_audio`: the filesystem and the deterministic
audio-conversion collaborator (pydub/ffmpeg).  `decode` models
`AudioSegment.from_file(name)` followed by `export` with the given ffmpeg
parameters (`none` = `CouldntDecodeError`/`KeyError`, line 109); `rawBoost`
models the `from_file(format="raw", ...)`/`export` pair of the
boost-without-convert branch (lines 117-125). -/
structure Env where
  fs : String → Except OpenErr (List Nat)
  decode : List String → List Nat → Option (List Nat)
  rawBoost : List String → List Nat → List Nat

/-- Python truthiness of the `data` argument: `if data:` (line 90) is false
for `None` and for the empty bytes object. -/
def dataTruthy : Option (List Nat) → Bool
  | none => false
  | some d => d != []

/-- Python truthiness of `self.audio_boost` (lines 86, 116). -/
def boostTruthy : Option Int → Bool
  | none => false
  | some b => b != 0

/-- The `ffmpeg_params` list built in lines 80-88. -/
def ffmpegParams (convert : Bool) (boost : Option Int) : List String :=
  (if convert then ["-ac", "1", "-ar", "16000"] else []) ++
  (match boost with
   | some b => if b != 0 then ["-af", "volume=" ++ toString b ++ "dB"] else []
   | none => [])

/-- The staged input: file contents together with the current read position
of the Python file object. -/
structure Staged where
  contents : List Nat
  pos : Nat
deriving DecidableEq, Repr

/-- The `else` branch of lines 93-103: open the named file, read it fully,
reject an empty file, seek back to 0.  `open(None)` raises `TypeError`
(uncaught); only `ValueError` is caught and logged. -/
def openFileBranch (env : Env) (filename : Option String) :
    Except Outcome Staged :=
  match filename with
  | none => .error (.raised "TypeError")
  | some fn =>
    match env.fs fn with
    | .error .valueError =>
      .error (.loggedReturn
        "Invalid file name. Are you trying to send in raw data in the filename field?")
    | .error .osError => .error (.raised "OSError")
    | .ok contents =>
      if contents.length = 0 then .error (.loggedReturn "Empty file provided.")
      else .ok ⟨contents, 0⟩

/-- Lines 90-103: stage the input.  When `data` is truthy it is written to
a fresh `NamedTemporaryFile`, which leaves the file object's position at the
end of the written data (there is no `seek(0)` in this branch); otherwise
the file branch runs. -/
def stageInput (env : Env) (filename : Option String)
    (data : Option (List Nat)) : Except Outcome Staged :=
  match data with
  | some d =>
    if d != [] then .ok ⟨d, d.length⟩
    else openFileBranch env filename
  | none => openFileBranch env filename

/-- Lines 76-127 of `send_audio`: everything before the first `sendto`.
Produces either an early outcome (logged error or uncaught exception) or
the byte stream that the streaming loop will read.  In the `convert` and
boost branches the collaborator reads the input file by name, i.e. its full
contents; in the no-conversion branch the output file object *is* the input
file object, so reading starts at the staged position. -/
def outputStream (env : Env) (convert : Bool) (boost : Option Int)
    (filename : Option String) (data : Option (List Nat)) :
    Except Outcome (List Nat) :=
  if filename = none ∧ data = none then .error (.loggedReturn "No data provided.")
  else
    let params := ffmpegParams convert boost
    match stageInput env filename data with
    | .error o => .error o
    | .ok staged =>
      if convert then
        match env.decode params staged.contents with
        | none =>
          .error (.loggedReturn
            "Failed to decode file. Trying to convert a raw PCM file?")
        | some out => .ok out
      else if boostTruthy boost then
        .ok (env.rawBoost params staged.contents)
      else
        .ok (List.drop staged.pos staged.contents)

/-- Result of a `send_audio` call: how it ended plus the datagrams emitted,
in order. -/
structure SendResult where
  outcome : Outcome
  datagrams : List Packet
deriving DecidableEq, Repr

/-- Errors raised by the `ipaddress` library: `AddressValueError` for a bad
address (or a string with more than one "/"), `NetmaskValueError` for a bad
mask.  Only the latter is caught by the constructor (line 38). -/
inductive PyErr
  | addressValueError
  | netmaskValueError
deriving DecidableEq, Repr

/-- A Python call that either returns a value or raises an uncaught
`ipaddress` exception. -/
inductive PyResult (α : Type)
  | ok (val : α)
  | exn (e : PyErr)
deriving DecidableEq, Repr

/-- ASCII digit test: this is the conjunction `s.isascii() and s.isdigit()`
checked by the `ipaddress` octet and mask parsers, per character. -/
def isAsciiDigit (c : Char) : Bool := 48 ≤ c.toNat && c.toNat ≤ 57

/-- Decimal value of a digit string (Python `int(s)` for a digit-only `s`). -/
def digitsVal (l : List Char) : Nat :=
  List.foldl (fun a c => a * 10 + (c.toNat - 48)) 0 l

/-- `str.split(sep)` helper: first field and remaining fields. -/
def splitAux (sep : Char) : List Char → List Char × List (List Char)
  | [] => ([], [])
  | x :: xs =>
    let r := splitAux sep xs
    if x = sep then ([], r.1 :: r.2)
    else (x :: r.1, r.2)

/-- Python `str.split(sep)` for a single-character separator: all fields,
empty fields preserved (always at least one field). -/
def splitOn (sep : Char) (l : List Char) : List (List Char) :=
  (splitAux sep l).1 :: (splitAux sep l).2

/-- `ipaddress._parse_octet`: non-empty, ASCII decimal digits only, at most
3 characters, value at most 255, no leading zero in a multi-character
octet. -/
def parseOctet (l : List Char) : Option Nat :=
  if l = [] then none
  else if ¬ l.all isAsciiDigit then none
  else if l.length > 3 then none
  else if digitsVal l > 255 then none
  else if l.length > 1 ∧ l.headD ' ' = '0' then none
  else some (digitsVal l)

/-- `ipaddress.IPv4Address._ip_int_from_string`: exactly four octets
separated by dots, packed big-endian into one integer. -/
def parseIPv4 (l : List Char) : Option Nat :=
  match splitOn '.' l with
  | [a, b, c, d] =>
    match parseOctet a, parseOctet b, parseOctet c, parseOctet d with
    | some w, some x, some y, some z =>
      some (((w * 256 + x) * 256 + y) * 256 + z)
    | _, _, _, _ => none
  | _ => none

/-- The 32-bit netmask integer for a given CIDR length `p ≤ 32`:
`p` one-bits followed by `32 - p` zero-bits. -/
def netmaskVal (p : Nat) : Nat := 2 ^ 32 - 2 ^ (32 - p)

/-- The 32-bit hostmask integer for a CIDR length `p ≤ 32`:
`32 - p` low one-bits. -/
def hostmaskVal (p : Nat) : Nat := 2 ^ (32 - p) - 1

/-- `ipaddress._prefix_from_ip_int`: succeeds exactly when the integer is a
contiguous-ones-from-the-top netmask, returning its CIDR length (the Python
original counts trailing zero bits and validates the remaining bits; an
integer below `2^32` passes that check iff it equals `netmaskVal p` for
some `p ≤ 32`, which is what the search below decides). -/
def pfxFromIpInt (ip : Nat) : Option Nat :=
  (List.range 33).find? (fun p => ip == netmaskVal p)

/-- `ipaddress._prefix_from_ip_string`: parse the dotted quad, accept it as
a netmask, or failing that accept its 32-bit complement as one (hostmask
form). -/
def pfxFromIpStr (l : List Char) : Option Nat :=
  match parseIPv4 l with
  | none => none
  | some ip =>
    match pfxFromIpInt ip with
    | some p => some p
    | none => pfxFromIpInt (ip ^^^ (2 ^ 32 - 1))

/-- `ipaddress.IPv4Network._make_netmask` on a string argument: a pure
ASCII digit string is tried as a CIDR length first (values above 32 fall
through to the dotted form and fail there); anything else is parsed as a
dotted netmask or hostmask.  `none` models `NetmaskValueError`. -/
def makeNetmask (l : List Char) : Option Nat :=
  if l ≠ [] ∧ l.all isAsciiDigit then
    if digitsVal l ≤ 32 then some (digitsVal l) else pfxFromIpStr l
  else pfxFromIpStr l

/-- `ipaddress.IPv4Network(combined, strict=False).broadcast_address` as a
32-bit integer.  The argument is split on "/": more than one "/" raises
`AddressValueError` ("Only one '/' permitted"); with no "/" the prefix
defaults to 32.  With `strict=False` the network address is the host
address masked by the netmask, and the broadcast address sets all host
bits. -/
def ipv4NetworkBroadcast (combined : List Char) : PyResult Nat :=
  match splitOn '/' combined with
  | [a] =>
    match parseIPv4 a with
    | none => .exn .addressValueError
    | some h => .ok ((h &&& netmaskVal 32) ||| hostmaskVal 32)
  | [a, m] =>
    match parseIPv4 a with
    | none => .exn .addressValueError
    | some h =>
      match makeNetmask m with
      | none => .exn .netmaskValueError
      | some p => .ok ((h &&& netmaskVal p) ||| hostmaskVal p)
  | _ => .exn .addressValueError

/-- The default mask substituted on `NetmaskValueError` (line 40). -/
def defaultMask : List Char := "255.255.255.0".toList

/-- Lines 35-42 of `WinkRelayIntercomBroadcaster.__init__`: compute the
broadcast address of `host_addr + "/" + net_mask`; on `NetmaskValueError`
log and retry with the default mask "255.255.255.0".  Any other exception
(in particular `AddressValueError`) propagates. -/
def resolveBroadcast (host mask : List Char) : PyResult Nat :=
  match ipv4NetworkBroadcast (host ++ '/' :: mask) with
  | .ok b => .ok b
  | .exn .netmaskValueError =>
    ipv4NetworkBroadcast (host ++ '/' :: defaultMask)
  | .exn .addressValueError => .exn .addressValueError

/-- Replace every `"\n"` with `"\r\n"` (the `.replace("\n", "\r\n")` call
on the formatted response, upnp.py line 37 / winkrelayintercom.py line
190). -/
def replaceLF : List Char → List Char
  | [] => []
  | c :: cs =>
    if c = '\n' then '\r' :: '\n' :: replaceLF cs else c :: replaceLF cs

/-- The `resp_template` literal with the four `format` arguments spliced in
(uuid, host address, advertise port, timestamp), before newline
replacement. -/
def rawTemplate (u h p d : List Char) : List Char :=
  "HTTP/1.1 200 OK\nST: urn:wink-com:device:relay:2\nUSN: uuid:".toList ++
  u ++ "::urn:wink-com:device:relay:2\nLOCATION: https://".toList ++
  h ++ ":".toList ++ p ++ "\nCACHE-CONTROL: max-age=1800\nDATE: ".toList ++
  d ++ "\nSERVER: node.js/0.10.38 UpnP/1.1 node-ssdp/2.6.5\nEXT:\n".toList

/-- `self.upnp_response`: the template formatted with the fresh identifier
and timestamp, then CRLF-converted (the final `.encode('utf-8')` is a
bijection on the characters, so the payload is kept as characters). -/
def renderResponse (u h p d : List Char) : List Char :=
  replaceLF (rawTemplate u h p d)

/-- The state of a `UPNPResponderThread` after `__init__`.  The fresh
`uuid.uuid4()` string and `datetime.utcnow()` timestamp are construction
inputs; the response payload is rendered once and stored. -/
structure Responder where
  host_ip_addr : List Char
  upnp_response : List Char
  interrupted : Bool
deriving DecidableEq, Repr

/-- `UPNPResponderThread.__init__(host_ip_addr, advertise_port)` with the
ambient randomness (`uuidStr`) and clock (`dateStr`) made explicit. -/
def mkResponder (hostIp advertisePort uuidStr dateStr : List Char) :
    Responder :=
  ⟨hostIp, renderResponse uuidStr hostIp advertisePort dateStr, false⟩

/-- One datagram received by the responder's poll loop: the payload after
`data.decode('utf-8', errors='ignore')`, plus the sender's address. -/
structure Datagram where
  payload : List Char
  srcAddr : Nat
  srcPort : Nat
deriving DecidableEq, Repr

/-- Does `needle` occur at the head of `hay`? -/
def leadEq : List Char → List Char → Bool
  | [], _ => true
  | _ :: _, [] => false
  | a :: as, b :: bs => a == b && leadEq as bs

/-- Python's substring test `needle in hay`. -/
def hasSub (needle : List Char) : List Char → Bool
  | [] => needle == []
  | c :: t => leadEq needle (c :: t) || hasSub needle t

/-- The literal "M-SEARCH" (both match conditions). -/
def mSearch : List Char := "M-SEARCH".toList

/-- The exact device service-type line required by the strict variant
(winkrelayintercom.py line 242). -/
def serviceTypeLine : List Char := "ST: urn:wink-com:device:relay:2".toList

/-- Match condition of the strict responder (winkrelayintercom.py line
242): the payload contains both "M-SEARCH" and the service-type line. -/
def matchesStrict (d : List Char) : Bool :=
  hasSub mSearch d && hasSub serviceTypeLine d

/-- Match condition of the persistent responder (upnp.py line 91). -/
def matchesLoose (d : List Char) : Bool := hasSub mSearch d

/-- The strict responder loop (winkrelayintercom.py lines 215-248) applied
to the sequence of datagrams it receives: each reply is
`(payload, source address, source port)`.  On a match it sends exactly one
reply from a short-lived socket and then calls `self._stop()`, which sets
`_interrupted` and then raises `RuntimeError` from `self.join()` (joining
the current thread); either way the loop processes nothing further, so the
remaining datagrams are dropped. -/
def runStrict (resp : List Char) : List Datagram → List (List Char × Nat × Nat)
  | [] => []
  | d :: rest =>
    if matchesStrict d.payload then [(resp, d.srcAddr, d.srcPort)]
    else runStrict resp rest

/-- The persistent responder loop (upnp.py lines 65-96): every matching
datagram gets one reply, and the loop keeps listening. -/
def runLoose (resp : List Char) (ds : List Datagram) :
    List (List Char × Nat × Nat) :=
  ds.filterMap (fun d =>
    if matchesLoose d.payload then some (resp, d.srcAddr, d.srcPort)
    else none)

/-- The state of a `WinkRelayIntercomBroadcaster` after `__init__`. -/
structure Broadcaster where
  host_addr : List Char
  net_mask : List Char
  bcast_addr : Nat
  convert : Bool
  audio_boost : Option Int
  ssdpResponder : Responder
deriving DecidableEq, Repr

/-- `WinkRelayIntercomBroadcaster.__init__` (lines 26-49): resolve the
broadcast address (with the default-mask fallback), store the
configuration, and construct the embedded `UPNPResponderThread` with
advertise port "8888".  The responder's fresh uuid and timestamp are
explicit inputs. -/
def mkBroadcaster (host mask : List Char) (convert : Bool)
    (boost : Option Int) (uuidStr dateStr : List Char) :
    PyResult Broadcaster :=
  match ipv4NetworkBroadcast (host ++ '/' :: mask) with
  | .ok b =>
    .ok ⟨host, mask, b, convert, boost,
      mkResponder host "8888".toList uuidStr dateStr⟩
  | .exn .netmaskValueError =>
    match ipv4NetworkBroadcast (host ++ '/' :: defaultMask) with
    | .ok b =>
      .ok ⟨host, defaultMask, b, convert, boost,
        mkResponder host "8888".toList uuidStr dateStr⟩
    | .exn e => .exn e
  | .exn .addressValueError => .exn .addressValueError

/-- `set_boost` (lines 61-67): replaces `self.audio_boost`. -/
def set_boost (s : Broadcaster) (b : Option Int) : Broadcaster :=
  { s with audio_boost := b }

/-- `send_audio` (lines 69-161): produce the final outcome and the ordered
list of datagrams handed to `socket.sendto`. -/
def send_audio (env : Env) (s : Broadcaster) (filename : Option String)
    (data : Option (List Nat)) : SendResult :=
  match outputStream env s.convert s.audio_boost filename data with
  | .error o => ⟨o, []⟩
  | .ok src => ⟨.completed, wireSequence s.bcast_addr (audioFrames src)⟩

/-- `send_audio` as a state transformer: the method mutates no field of
`self`, so the session state passes through unchanged. -/
def send_audio_st (env : Env) (s : Broadcaster) (filename : Option String)
    (data : Option (List Nat)) : Broadcaster × SendResult :=
  (s, send_audio env s filename data)

/-- Standard IPv4 subnet broadcast computation, written from the spec's
words ("the standard IPv4 broadcast computation for that subnet"): keep the
network bits of the host address and set every host bit, for a netmask
given as a 32-bit integer. -/
def specStdBroadcast (h m : Nat) : Nat :=
  (h &&& m) ||| ((2 ^ 32 - 1) ^^^ m)

/-- The number of loop iterations whose post-frame sleep is the long one,
for `n` frames starting at packet count `c`: the loop sleeps 20 ms after
the frame whose count is divisible by 100. -/
def longDelayCount : Nat → Nat → Nat
  | 0, _ => 0
  | n + 1, c => (if c % 100 = 0 then 1 else 0) + longDelayCount n (c + 1)

/-- A concrete environment for witnesses: the filesystem maps every name to
a 5-byte file of value 7, decoding fails, raw boost is the identity. -/
def envW : Env :=
  ⟨fun _ => .ok (List.replicate 5 7), fun _ _ => none, fun _ d => d⟩

/-- A concrete environment whose filesystem raises a non-`ValueError` open
failure (e.g. `FileNotFoundError`) for every name. -/
def envOs : Env :=
  ⟨fun _ => .error .osError, fun _ _ => none, fun _ d => d⟩

/-- The broadcast session of the end-to-end scenario: host 192.168.1.5,
mask 255.255.255.0, `convert=False`, `audio_boost=None`, with fixed
responder randomness "u" and timestamp "d".  Its broadcast address is
192.168.1.255 = 0xC0A801FF. -/
def session0 : Broadcaster :=
  ⟨"192.168.1.5".toList, "255.255.255.0".toList, 0xC0A801FF, false, none,
    mkResponder "192.168.1.5".toList "8888".toList "u".toList "d".toList⟩

/-- A 640-byte in-memory raw PCM buffer (two frames of the byte 1). -/
def d640 : List Nat := List.replicate 640 1

/-- Environment whose filesystem raises `ValueError` on every open. -/
def envV : Env :=
  ⟨fun _ => .error .valueError, fun _ _ => none, fun _ d => d⟩

/-- Environment whose filesystem returns an empty file for every name. -/
def envE : Env :=
  ⟨fun _ => .ok [], fun _ _ => none, fun _ d => d⟩

/-- A session identical to `session0` except for the responder's
construction-time randomness and timestamp. -/
def session1 : Broadcaster :=
  ⟨"192.168.1.5".toList, "255.255.255.0".toList, 0xC0A801FF, false, none,
    mkResponder "192.168.1.5".toList "8888".toList "u2".toList "d2".toList⟩

/-- A discovery datagram matching both strict-variant conditions. -/
def dgMatch : Datagram :=
  ⟨"M-SEARCH * HTTP/1.1 ST: urn:wink-com:device:relay:2".toList, 5, 6⟩

/-- A discovery datagram matching neither condition. -/
def dgOther : Datagram := ⟨"NOTIFY * HTTP/1.1".toList, 7, 8⟩

theorem padTo320_eq (c : List Nat) :
    padTo320 c = c ++ List.replicate (320 - c.length) 0 := by
  unfold padTo320
  split
  · rfl
  · next h =>
    have hl : c.length = 320 := by omega
    simp [hl]

theorem padTo320_length (c : List Nat) (h : c.length ≤ 320) :
    (padTo320 c).length = 320 := by
  rw [padTo320_eq]
  simp
  omega

theorem chunksAux_len_le :
    ∀ (fuel : Nat) (l c : List Nat), c ∈ chunksAux fuel l → c.length ≤ 320 := by
  intro fuel
  induction fuel with
  | zero =>
    intro l c hc
    cases l <;> simp [chunksAux] at hc
  | succ f ih =>
    intro l c hc
    cases l with
    | nil => simp [chunksAux] at hc
    | cons x xs =>
      simp only [chunksAux, List.mem_cons] at hc
      rcases hc with rfl | hc
      · simp [List.length_take]
      · exact ih _ _ hc

theorem chunksAux_flatten :
    ∀ (fuel : Nat) (l : List Nat), l.length ≤ fuel →
      (chunksAux fuel l).flatten = l := by
  intro fuel
  induction fuel with
  | zero =>
    intro l h
    cases l with
    | nil => simp [chunksAux]
    | cons x xs => simp at h
  | succ f ih =>
    intro l h
    cases l with
    | nil => simp [chunksAux]
    | cons x xs =>
      simp only [chunksAux, List.flatten_cons]
      rw [ih]
      · exact List.take_append_drop 320 (x :: xs)
      · simp only [List.length_drop]
        simp at h ⊢
        omega

theorem streamLoopAux_fst :
    ∀ (fuel : Nat) (l : List Nat) (c : Nat),
      (streamLoopAux fuel l c).map Prod.fst = (chunksAux fuel l).map padTo320 := by
  intro fuel
  induction fuel with
  | zero =>
    intro l c
    cases l <;> simp [streamLoopAux, chunksAux]
  | succ f ih =>
    intro l c
    cases l with
    | nil => simp [streamLoopAux, chunksAux]
    | cons x xs => simp [streamLoopAux, chunksAux, ih]

theorem longDelayCount_le (n : Nat) : ∀ c, longDelayCount n c ≤ n := by
  induction n with
  | zero => intro c; simp [longDelayCount]
  | succ n ih =>
    intro c
    simp only [longDelayCount]
    have := ih (c + 1)
    split <;> omega

theorem streamLoopAux_counts :
    ∀ (fuel : Nat) (l : List Nat) (c : Nat),
      ((streamLoopAux fuel l c).countP (fun p => p.2 == 20))
        = longDelayCount (chunksAux fuel l).length c ∧
      ((streamLoopAux fuel l c).countP (fun p => p.2 == 10))
        = (chunksAux fuel l).length - longDelayCount (chunksAux fuel l).length c := by
  intro fuel
  induction fuel with
  | zero =>
    intro l c
    cases l <;> simp [streamLoopAux, chunksAux, longDelayCount]
  | succ f ih =>
    intro l c
    cases l with
    | nil => simp [streamLoopAux, chunksAux, longDelayCount]
    | cons x xs =>
      obtain ⟨h1, h2⟩ := ih (List.drop 320 (x :: xs)) (c + 1)
      have h3 := longDelayCount_le (chunksAux f (List.drop 320 (x :: xs))).length (c + 1)
      by_cases hc : c % 100 = 0 <;>
        simp [streamLoopAux, chunksAux, List.countP_cons, longDelayCount, hc]
          at h1 h2 h3 ⊢ <;>
        omega

theorem longDelayCount_eq :
    ∀ (n c : Nat), longDelayCount n c = (c + n + 99) / 100 - (c + 99) / 100 := by
  intro n
  induction n with
  | zero => intro c; simp [longDelayCount]
  | succ n ih =>
    intro c
    have h := ih (c + 1)
    simp only [longDelayCount, h]
    by_cases hc : c % 100 = 0 <;> simp [hc] <;> omega

/-- C1: for every input audio stream, every audio-frame datagram sent by the
streaming loop of `send_audio` is exactly 320 bytes long; a final short
chunk is zero-padded on the right to 320 bytes, and concatenating the raw
chunks gives back the whole stream (nothing truncated or dropped). -/
theorem C1_frames_always_320 (env : Env) (s : Broadcaster)
    (filename : Option String) (data : Option (List Nat)) (src : List Nat)
    (h : outputStream env s.convert s.audio_boost filename data = .ok src) :
    (send_audio env s filename data).datagrams
      = wireSequence s.bcast_addr (audioFrames src) ∧
    (∀ f ∈ audioFrames src, f.length = 320) ∧
    audioFrames src
      = (chunks320 src).map (fun c => c ++ List.replicate (320 - c.length) 0) ∧
    (chunks320 src).flatten = src := by
  refine ⟨?_, ?_, ?_, ?_⟩
  · unfold send_audio
    rw [h]
  · intro f hf
    unfold audioFrames streamLoop at hf
    rw [streamLoopAux_fst] at hf
    simp only [List.mem_map] at hf
    obtain ⟨ck, hck, rfl⟩ := hf
    exact padTo320_length _ (chunksAux_len_le _ _ _ hck)
  · unfold audioFrames streamLoop chunks320
    rw [streamLoopAux_fst]
    have hp : padTo320 = fun c => c ++ List.replicate (320 - c.length) 0 :=
      funext padTo320_eq
    rw [hp]
  · exact chunksAux_flatten _ _ le_rfl

theorem C1_frames_always_320_witness :
    outputStream envW session0.convert session0.audio_boost (some "f") none
      = .ok (List.replicate 5 7) ∧
    ((send_audio envW session0 (some "f") none).datagrams
       = wireSequence session0.bcast_addr (audioFrames (List.replicate 5 7)) ∧
     (∀ f ∈ audioFrames (List.replicate 5 7), f.length = 320) ∧
     audioFrames (List.replicate 5 7)
       = (chunks320 (List.replicate 5 7)).map
           (fun c => c ++ List.replicate (320 - c.length) 0) ∧
     (chunks320 (List.replicate 5 7)).flatten = List.replicate 5 7) :=
  ⟨rfl, C1_frames_always_320 envW session0 (some "f") none _ rfl⟩

/-- C4: across a streaming loop of `N ≥ 1` frames, exactly `⌈N/100⌉`
frames are followed by the long (20 ms) delay and the remaining
`N - ⌈N/100⌉` frames by the short (10 ms) delay. -/
theorem C4_pacing (src : List Nat) (hN : 1 ≤ numFrames src) :
    ((streamLoop src 0).countP (fun p => p.2 == 20))
      = (numFrames src + 99) / 100 ∧
    ((streamLoop src 0).countP (fun p => p.2 == 10))
      = numFrames src - (numFrames src + 99) / 100 := by
  have h := streamLoopAux_counts src.length src 0
  have he := longDelayCount_eq (chunksAux src.length src).length 0
  unfold streamLoop numFrames chunks320
  constructor
  · rw [h.1, he]
    omega
  · rw [h.2, he]
    omega

theorem C4_pacing_witness :
    1 ≤ numFrames (List.replicate 5 7) ∧
    (((streamLoop (List.replicate 5 7) 0).countP (fun p => p.2 == 20))
        = (numFrames (List.replicate 5 7) + 99) / 100 ∧
     ((streamLoop (List.replicate 5 7) 0).countP (fun p => p.2 == 10))
        = numFrames (List.replicate 5 7)
            - (numFrames (List.replicate 5 7) + 99) / 100) :=
  ⟨by decide, C4_pacing _ (by decide)⟩

set_option maxRecDepth 16000 in
/-- C2 (code bug): with `convert=False` and no boost, `send_audio` on an
in-memory 640-byte buffer emits NO audio frames at all — the buffer is
written to the input temp file and, because the file position is left at
the end of the written data (no `seek(0)` in the `if data:` branch, unlike
the filename branch), the streaming loop's first `read(320)` returns empty.
The wire sequence is 1 START + 15 NULL + 0 audio frames + 10 NULL + 3 END
= 29 datagrams, all to (192.168.1.255, 10444), and neither source frame
appears, contradicting the claimed 31-datagram sequence with the 2 source
frames in the middle. -/
theorem C2_data_path_sends_no_audio :
    mkBroadcaster "192.168.1.5".toList "255.255.255.0".toList false none
        "u".toList "d".toList = .ok session0 ∧
    send_audio envW session0 none (some d640)
      = ⟨.completed, wireSequence 0xC0A801FF []⟩ ∧
    (send_audio envW session0 none (some d640)).datagrams.length = 29 ∧
    List.replicate 320 1 ∉
      (send_audio envW session0 none (some d640)).datagrams.map Packet.payload ∧
    ((send_audio envW session0 none (some d640)).datagrams.all
      (fun pk => pk.destAddr == 0xC0A801FF && pk.destPort == UDP_PORT)) = true := by
  refine ⟨by decide, by decide, by decide, by decide, by decide⟩

/-- C9: calling `send_audio` with `data = b""` and no filename is not
handled as the reported no-data error: the `is None` check passes, the
truthiness test `if data:` fails, execution enters the file branch with
`filename = None`, and `open(None)` raises an uncaught `TypeError` before
any datagram is sent. -/
theorem C9_empty_data_raises (env : Env) (s : Broadcaster) :
    send_audio env s none (some []) = ⟨.raised "TypeError", []⟩ ∧
    (send_audio env s none (some [])).outcome
      ≠ .loggedReturn "No data provided." ∧
    (send_audio env s none (some [])).outcome.isLoggedReturn = false := by
  have h : send_audio env s none (some []) = ⟨.raised "TypeError", []⟩ := rfl
  refine ⟨h, ?_, ?_⟩
  · rw [h]
    simp
  · rw [h]
    rfl

theorem stageInput_not_truthy (env : Env) (filename : Option String)
    (data : Option (List Nat)) (h : dataTruthy data = false) :
    stageInput env filename data = openFileBranch env filename := by
  cases data with
  | none => rfl
  | some d =>
    simp only [dataTruthy] at h
    simp [stageInput, h]

/-- C5 (amended): every error path of `send_audio` — including the ones
that raise an uncaught exception — emits no datagram; the no-data,
`ValueError` open failure, empty-file and decode-failure paths are logged
and return normally.  (A non-`ValueError` open failure such as
`FileNotFoundError` instead propagates as an uncaught exception; see the
counterexample.) -/
theorem C5_error_paths (env : Env) (s : Broadcaster)
    (filename : Option String) (data : Option (List Nat)) :
    ((send_audio env s filename data).outcome ≠ .completed →
      (send_audio env s filename data).datagrams = []) ∧
    (filename = none → data = none →
      (send_audio env s filename data).outcome
        = .loggedReturn "No data provided.") ∧
    (∀ fn, filename = some fn → dataTruthy data = false →
      env.fs fn = .error .valueError →
      (send_audio env s filename data).outcome
        = .loggedReturn
          "Invalid file name. Are you trying to send in raw data in the filename field?") ∧
    (∀ fn, filename = some fn → dataTruthy data = false →
      env.fs fn = .ok [] →
      (send_audio env s filename data).outcome
        = .loggedReturn "Empty file provided.") ∧
    (∀ st, s.convert = true → stageInput env filename data = .ok st →
      env.decode (ffmpegParams s.convert s.audio_boost) st.contents = none →
      (send_audio env s filename data).outcome
        = .loggedReturn
          "Failed to decode file. Trying to convert a raw PCM file?") := by
  refine ⟨?_, ?_, ?_, ?_, ?_⟩
  · intro hne
    unfold send_audio at *
    cases h : outputStream env s.convert s.audio_boost filename data with
    | error o => simp [h]
    | ok src => rw [h] at hne; simp at hne
  · rintro rfl rfl
    rfl
  · rintro fn rfl hd hfs
    have hst : stageInput env (some fn) data
        = .error (.loggedReturn
          "Invalid file name. Are you trying to send in raw data in the filename field?") := by
      rw [stageInput_not_truthy env (some fn) data hd]
      simp [openFileBranch, hfs]
    unfold send_audio outputStream
    simp [hst]
  · rintro fn rfl hd hfs
    have hst : stageInput env (some fn) data
        = .error (.loggedReturn "Empty file provided.") := by
      rw [stageInput_not_truthy env (some fn) data hd]
      simp [openFileBranch, hfs]
    unfold send_audio outputStream
    simp [hst]
  · intro st hconv hst hdec
    have hne : ¬ (filename = none ∧ data = none) := by
      rintro ⟨rfl, rfl⟩
      simp [stageInput, openFileBranch] at hst
    rw [hconv] at hdec
    unfold send_audio outputStream
    simp [hne, hst, hconv, hdec]

/-- C5 counterexample: a file-open failure that is not a `ValueError`
(e.g. `FileNotFoundError`) is NOT reported-and-returned — it propagates as
an uncaught exception (still before any datagram is sent), contradicting
the claim that every listed input error is reported and `send_audio`
returns. -/
theorem C5_open_failure_not_reported :
    send_audio envOs session0 (some "missing.wav") none
      = ⟨.raised "OSError", []⟩ ∧
    (send_audio envOs session0 (some "missing.wav") none).outcome.isLoggedReturn
      = false ∧
    (send_audio envOs session0 (some "missing.wav") none).outcome
      ≠ .completed := by
  refine ⟨rfl, rfl, by decide⟩

theorem C5_error_paths_witness :
    ((send_audio envW session0 none none).outcome
        = .loggedReturn "No data provided.") ∧
    ((send_audio envOs session0 (some "x") none).datagrams = []) ∧
    ((send_audio envV session0 (some "x") none).outcome
        = .loggedReturn
          "Invalid file name. Are you trying to send in raw data in the filename field?") ∧
    ((send_audio envE session0 (some "x") none).outcome
        = .loggedReturn "Empty file provided.") :=
  ⟨(C5_error_paths envW session0 none none).2.1 rfl rfl,
   (C5_error_paths envOs session0 (some "x") none).1 (by decide),
   (C5_error_paths envV session0 (some "x") none).2.2.1 "x" rfl rfl rfl,
   (C5_error_paths envE session0 (some "x") none).2.2.2.1 "x" rfl rfl rfl⟩

/-- C8: with the boost set once before the first send, two `send_audio`
calls with the same source produce identical datagram streams (the method
mutates no session state), and the stream does not depend on any session
field other than the broadcast address, the convert flag and the boost —
in particular not on the responder's construction-time randomness. -/
theorem C8_deterministic_sends (env : Env) (s s' : Broadcaster)
    (b : Option Int) (filename : Option String) (data : Option (List Nat))
    (hb : s.bcast_addr = s'.bcast_addr) (hc : s.convert = s'.convert) :
    ((send_audio_st env
        ((send_audio_st env (set_boost s b) filename data).1) filename data).2
      = (send_audio_st env (set_boost s b) filename data).2) ∧
    send_audio env (set_boost s b) filename data
      = send_audio env (set_boost s' b) filename data := by
  constructor
  · rfl
  · cases s with
    | mk h1 m1 bc1 cv1 ab1 r1 =>
      cases s' with
      | mk h2 m2 bc2 cv2 ab2 r2 =>
        simp only at hb hc
        subst hb
        subst hc
        rfl

theorem C8_deterministic_sends_witness :
    session0.bcast_addr = session1.bcast_addr ∧
    session0.convert = session1.convert ∧
    send_audio envW (set_boost session0 none) (some "f") none
      = send_audio envW (set_boost session1 none) (some "f") none :=
  ⟨rfl, rfl,
   (C8_deterministic_sends envW session0 session1 none (some "f") none
      rfl rfl).2⟩

theorem runStrict_mem (resp : List Char) :
    ∀ (ds : List Datagram) (r : List Char × Nat × Nat),
      r ∈ runStrict resp ds → r.1 = resp := by
  intro ds
  induction ds with
  | nil =>
    intro r hr
    simp [runStrict] at hr
  | cons d rest ih =>
    intro r hr
    unfold runStrict at hr
    split at hr
    · simp at hr
      rw [hr]
    · exact ih r hr

theorem runLoose_mem (resp : List Char) (ds : List Datagram)
    (r : List Char × Nat × Nat) (hr : r ∈ runLoose resp ds) : r.1 = resp := by
  unfold runLoose at hr
  simp only [List.mem_filterMap] at hr
  obtain ⟨d, _, hif⟩ := hr
  by_cases hm : matchesLoose d.payload
  · rw [if_pos hm] at hif
    cases hif
    rfl
  · rw [if_neg hm] at hif
    cases hif

/-- C6: in the strict responder loop, a received datagram whose payload
contains both "M-SEARCH" and the exact service-type line triggers exactly
one reply, addressed to the query's source, and the loop terminates
(whatever datagrams would have followed are never processed); a datagram
not matching both conditions produces zero replies and the loop
continues. -/
theorem C6_strict_responder (resp : List Char) (d : Datagram)
    (rest : List Datagram) :
    (matchesStrict d.payload = true →
      runStrict resp (d :: rest) = [(resp, d.srcAddr, d.srcPort)]) ∧
    (matchesStrict d.payload = false →
      runStrict resp (d :: rest) = runStrict resp rest) := by
  constructor <;> intro h <;> simp [runStrict, h]

theorem C6_strict_responder_witness :
    matchesStrict dgMatch.payload = true ∧
    runStrict "R".toList (dgMatch :: [dgOther])
      = [("R".toList, dgMatch.srcAddr, dgMatch.srcPort)] ∧
    matchesStrict dgOther.payload = false ∧
    runStrict "R".toList (dgOther :: []) = runStrict "R".toList [] :=
  ⟨by decide,
   (C6_strict_responder "R".toList dgMatch [dgOther]).1 (by decide),
   by decide,
   (C6_strict_responder "R".toList dgOther []).2 (by decide)⟩

/-- C7: the discovery response payload is rendered exactly once at
construction (`mkResponder` stores `renderResponse` of the construction-time
uuid and timestamp), and every reply either responder variant ever sends
carries exactly that payload, so all replies within one responder lifetime
are byte-identical. -/
theorem C7_response_rendered_once (host port u dt : List Char)
    (ds : List Datagram) (r : List Char × Nat × Nat)
    (hr : r ∈ runLoose (mkResponder host port u dt).upnp_response ds ∨
          r ∈ runStrict (mkResponder host port u dt).upnp_response ds) :
    (mkResponder host port u dt).upnp_response = renderResponse u host port dt ∧
    r.1 = renderResponse u host port dt := by
  refine ⟨rfl, ?_⟩
  rcases hr with hr | hr
  · exact runLoose_mem _ ds r hr
  · exact runStrict_mem _ ds r hr

theorem C7_response_rendered_once_witness :
    ((renderResponse "u".toList "h".toList "8888".toList "d".toList,
        (5 : Nat), (6 : Nat))
      ∈ runLoose
          (mkResponder "h".toList "8888".toList "u".toList "d".toList).upnp_response
          [dgMatch]) ∧
    ((mkResponder "h".toList "8888".toList "u".toList "d".toList).upnp_response
        = renderResponse "u".toList "h".toList "8888".toList "d".toList ∧
     (renderResponse "u".toList "h".toList "8888".toList "d".toList,
        (5 : Nat), (6 : Nat)).1
        = renderResponse "u".toList "h".toList "8888".toList "d".toList) :=
  ⟨by decide,
   C7_response_rendered_once "h".toList "8888".toList "u".toList "d".toList
     [dgMatch] _ (Or.inl (by decide))⟩

theorem splitAux_cons (sep y : Char) (ys : List Char) :
    splitAux sep (y :: ys)
      = if y = sep
        then ([], (splitAux sep ys).1 :: (splitAux sep ys).2)
        else (y :: (splitAux sep ys).1, (splitAux sep ys).2) := rfl

theorem splitAux_no_sep (sep : Char) :
    ∀ l : List Char, sep ∉ l → splitAux sep l = (l, []) := by
  intro l
  induction l with
  | nil => intro h; rfl
  | cons x xs ih =>
    intro h
    simp only [List.mem_cons, not_or] at h
    have hx : ¬ x = sep := fun hx => h.1 hx.symm
    rw [splitAux_cons, if_neg hx, ih h.2]

theorem splitAux_append_sep (sep : Char) :
    ∀ (a b : List Char), sep ∉ a →
      splitAux sep (a ++ sep :: b)
        = (a, (splitAux sep b).1 :: (splitAux sep b).2) := by
  intro a
  induction a with
  | nil =>
    intro b h
    rw [List.nil_append, splitAux_cons, if_pos rfl]
  | cons x xs ih =>
    intro b h
    simp only [List.mem_cons, not_or] at h
    have hx : ¬ x = sep := fun hx => h.1 hx.symm
    rw [List.cons_append, splitAux_cons, if_neg hx, ih b h.2]

theorem splitOn_append_sep (sep : Char) (a b : List Char) (h : sep ∉ a) :
    splitOn sep (a ++ sep :: b) = a :: splitOn sep b := by
  unfold splitOn
  rw [splitAux_append_sep sep a b h]

theorem splitOn_no_sep (sep : Char) (l : List Char) (h : sep ∉ l) :
    splitOn sep l = [l] := by
  unfold splitOn
  rw [splitAux_no_sep sep l h]

theorem mem_splitAux (sep : Char) :
    ∀ (l : List Char) (x : Char), x ∈ l →
      x = sep ∨ x ∈ (splitAux sep l).1 ∨ ∃ p ∈ (splitAux sep l).2, x ∈ p := by
  intro l
  induction l with
  | nil => intro x hx; simp at hx
  | cons y ys ih =>
    intro x hx
    rcases List.mem_cons.mp hx with rfl | hx
    · by_cases hy : x = sep
      · exact Or.inl hy
      · right; left
        rw [splitAux_cons, if_neg hy]
        exact List.mem_cons_self x _
    · rcases ih x hx with h | h | ⟨p, hp, hxp⟩
      · exact Or.inl h
      · by_cases hy : y = sep
        · right; right
          rw [splitAux_cons, if_pos hy]
          exact ⟨(splitAux sep ys).1, List.mem_cons_self _ _, h⟩
        · right; left
          rw [splitAux_cons, if_neg hy]
          exact List.mem_cons_of_mem y h
      · by_cases hy : y = sep
        · right; right
          rw [splitAux_cons, if_pos hy]
          exact ⟨p, List.mem_cons_of_mem _ hp, hxp⟩
        · right; right
          rw [splitAux_cons, if_neg hy]
          exact ⟨p, hp, hxp⟩

theorem parseOctet_digits (l : List Char) (n : Nat) (h : parseOctet l = some n) :
    l.all isAsciiDigit = true := by
  unfold parseOctet at h
  split at h
  · exact absurd h (by simp)
  · split at h
    · exact absurd h (by simp)
    · next h2 => exact of_not_not h2

theorem parseIPv4_elim (l : List Char) (n : Nat) (h : parseIPv4 l = some n) :
    ∃ a b c d na nb nc nd,
      splitOn '.' l = [a, b, c, d] ∧
      parseOctet a = some na ∧ parseOctet b = some nb ∧
      parseOctet c = some nc ∧ parseOctet d = some nd := by
  unfold parseIPv4 at h
  rcases hs : splitOn '.' l with _ | ⟨a, t⟩
  · rw [hs] at h
    exact Option.noConfusion h
  rcases t with _ | ⟨b, t⟩
  · rw [hs] at h
    exact Option.noConfusion h
  rcases t with _ | ⟨c, t⟩
  · rw [hs] at h
    exact Option.noConfusion h
  rcases t with _ | ⟨d, t⟩
  · rw [hs] at h
    exact Option.noConfusion h
  rcases t with _ | ⟨e, t⟩
  · rw [hs] at h
    have h2 : (match parseOctet a, parseOctet b, parseOctet c, parseOctet d with
        | some w, some x, some y, some z =>
          some (((w * 256 + x) * 256 + y) * 256 + z)
        | _, _, _, _ => none) = some n := h
    rcases ha : parseOctet a with _ | na <;> rw [ha] at h2
    · exact Option.noConfusion h2
    rcases hb : parseOctet b with _ | nb <;> rw [hb] at h2
    · exact Option.noConfusion h2
    rcases hc : parseOctet c with _ | nc <;> rw [hc] at h2
    · exact Option.noConfusion h2
    rcases hd : parseOctet d with _ | nd <;> rw [hd] at h2
    · exact Option.noConfusion h2
    exact ⟨a, b, c, d, na, nb, nc, nd, rfl, ha, hb, hc, hd⟩
  · rw [hs] at h
    exact Option.noConfusion h

theorem parseIPv4_no_slash (l : List Char) (n : Nat) (h : parseIPv4 l = some n) :
    '/' ∉ l := by
  intro hmem
  obtain ⟨a, b, c, d, na, nb, nc, nd, hs, ha, hb, hc, hd⟩ := parseIPv4_elim l n h
  unfold splitOn at hs
  injection hs with h1 h2
  rcases mem_splitAux '.' l '/' hmem with hdot | hin | ⟨p, hp, hxp⟩
  · exact absurd hdot (by decide)
  · rw [h1] at hin
    have := List.all_eq_true.mp (parseOctet_digits a na ha) '/' hin
    exact absurd this (by decide)
  · rw [h2] at hp
    have hall : p.all isAsciiDigit = true := by
      rcases List.mem_cons.mp hp with rfl | hp2
      · exact parseOctet_digits _ _ hb
      rcases List.mem_cons.mp hp2 with rfl | hp3
      · exact parseOctet_digits _ _ hc
      rcases List.mem_cons.mp hp3 with rfl | hp4
      · exact parseOctet_digits _ _ hd
      · exact absurd hp4 (by simp)
    have := List.all_eq_true.mp hall '/' hxp
    exact absurd this (by decide)

theorem pfxFromIpStr_no_slash (l : List Char) (p : Nat)
    (h : pfxFromIpStr l = some p) : '/' ∉ l := by
  unfold pfxFromIpStr at h
  rcases hip : parseIPv4 l with _ | ip
  · rw [hip] at h
    exact Option.noConfusion h
  · exact parseIPv4_no_slash l ip hip

theorem makeNetmask_no_slash (mask : List Char) (p : Nat)
    (h : makeNetmask mask = some p) : '/' ∉ mask := by
  unfold makeNetmask at h
  split at h
  · next hcond =>
    intro hmem
    have := List.all_eq_true.mp hcond.2 '/' hmem
    exact absurd this (by decide)
  · exact pfxFromIpStr_no_slash mask p h

theorem xor_full_netmask :
    ∀ p, p < 33 → ((2 ^ 32 - 1) ^^^ netmaskVal p) = hostmaskVal p := by
  decide

theorem pfxFromIpInt_elim (m p : Nat) (h : pfxFromIpInt m = some p) :
    m = netmaskVal p ∧ p < 33 := by
  unfold pfxFromIpInt at h
  have hbeq := List.find?_some h
  have hmem := List.mem_of_find?_eq_some h
  exact ⟨eq_of_beq hbeq, List.mem_range.mp hmem⟩

theorem ipv4NetworkBroadcast_eval (host mask : List Char) (h : Nat)
    (hhost : parseIPv4 host = some h) (hslash : '/' ∉ mask) :
    ipv4NetworkBroadcast (host ++ '/' :: mask)
      = match makeNetmask mask with
        | none => .exn .netmaskValueError
        | some p => .ok ((h &&& netmaskVal p) ||| hostmaskVal p) := by
  have hnh : '/' ∉ host := parseIPv4_no_slash host h hhost
  have e1 : splitOn '/' (host ++ '/' :: mask) = [host, mask] := by
    rw [splitOn_append_sep '/' host mask hnh, splitOn_no_sep '/' mask hslash]
  unfold ipv4NetworkBroadcast
  rw [e1]
  cases hm : makeNetmask mask with
  | none => simp [hhost, hm]
  | some p => simp [hhost, hm]

theorem resolveBroadcast_eval (host mask : List Char) (h : Nat)
    (hhost : parseIPv4 host = some h) (hslash : '/' ∉ mask) :
    resolveBroadcast host mask
      = match makeNetmask mask with
        | some p => .ok ((h &&& netmaskVal p) ||| hostmaskVal p)
        | none => .ok ((h &&& netmaskVal 24) ||| hostmaskVal 24) := by
  have hdm : '/' ∉ defaultMask := by decide
  have h24 : makeNetmask defaultMask = some 24 := by decide
  have e2 := ipv4NetworkBroadcast_eval host defaultMask h hhost hdm
  rw [h24] at e2
  unfold resolveBroadcast
  rw [ipv4NetworkBroadcast_eval host mask h hhost hslash]
  cases hm : makeNetmask mask with
  | none => simpa using e2
  | some p => simp

/-- C3 counterexample: the host "192.168.1.5" parses as IPv4 and the mask
"255.255.255.0/24" does not parse as a mask, yet the stored address is not
the default-mask result: the "/" inside the mask makes the combined
`host + "/" + mask` string split into three parts, which raises
`AddressValueError` — an exception the constructor does not catch — so the
mask parse failure propagates to the caller even though the host address is
parseable. -/
theorem C3_slash_mask_propagates :
    parseIPv4 "192.168.1.5".toList = some 0xC0A80105 ∧
    makeNetmask "255.255.255.0/24".toList = none ∧
    resolveBroadcast "192.168.1.5".toList "255.255.255.0/24".toList
      = .exn .addressValueError := by
  refine ⟨by decide, by decide, by decide⟩

/-- C3 (amended): for every host that parses as IPv4 and every mask `M`
containing no "/" character: if `M` parses as a mask (CIDR length, dotted
netmask or hostmask) the stored broadcast address is the standard IPv4
subnet broadcast computation for that subnet; if `M` does not parse, the
stored address is the same computation with the default mask
"255.255.255.0" and the parse failure is not propagated; and for a
dotted-quad netmask the result is exactly the spec's bitwise formula
`(H AND M) OR (NOT M)`.  (A mask containing "/" instead makes the
constructor raise `AddressValueError`; see the counterexample.) -/
theorem C3_resolver (host mask : List Char) (h : Nat)
    (hhost : parseIPv4 host = some h) (hslash : '/' ∉ mask) :
    (∀ p, makeNetmask mask = some p →
      resolveBroadcast host mask
        = .ok ((h &&& netmaskVal p) ||| hostmaskVal p)) ∧
    (makeNetmask mask = none →
      resolveBroadcast host mask
        = .ok ((h &&& netmaskVal 24) ||| hostmaskVal 24)) ∧
    (∀ m p, parseIPv4 mask = some m → pfxFromIpInt m = some p →
      resolveBroadcast host mask = .ok (specStdBroadcast h m)) := by
  have he := resolveBroadcast_eval host mask h hhost hslash
  refine ⟨?_, ?_, ?_⟩
  · intro p hp
    rw [he, hp]
  · intro hp
    rw [he, hp]
  · intro m p hm hp
    obtain ⟨a, b2, c2, d2, na, nb, nc, nd, hs, ha, hb, hc, hd⟩ :=
      parseIPv4_elim mask m hm
    have hdot : '.' ∈ mask := by
      by_contra hnd
      have hsp := splitAux_no_sep '.' mask hnd
      unfold splitOn at hs
      rw [hsp] at hs
      simp at hs
    have hnotdig : ¬ (mask ≠ [] ∧ mask.all isAsciiDigit = true) := by
      rintro ⟨-, hall⟩
      have := List.all_eq_true.mp hall '.' hdot
      exact absurd this (by decide)
    have hmk : makeNetmask mask = some p := by
      unfold makeNetmask
      rw [if_neg hnotdig]
      unfold pfxFromIpStr
      rw [hm]
      show (match pfxFromIpInt m with
            | some q => some q
            | none => pfxFromIpInt (m ^^^ (2 ^ 32 - 1))) = some p
      rw [hp]
    obtain ⟨hmv, hplt⟩ := pfxFromIpInt_elim m p hp
    rw [he, hmk]
    unfold specStdBroadcast
    rw [hmv, xor_full_netmask p hplt]

theorem C3_resolver_witness :
    parseIPv4 "10.0.0.7".toList = some 0x0A000007 ∧
    ('/' ∉ "255.255.0.0".toList) ∧
    makeNetmask "255.255.0.0".toList = some 16 ∧
    resolveBroadcast "10.0.0.7".toList "255.255.0.0".toList
      = .ok ((0x0A000007 &&& netmaskVal 16) ||| hostmaskVal 16) :=
  ⟨by decide, by decide, by decide,
   (C3_resolver "10.0.0.7".toList "255.255.0.0".toList 0x0A000007
      (by decide) (by decide)).1 16 (by decide)⟩

/-- C10: for a parseable mask and two hosts in the same subnet under it,
the constructor derives the same broadcast address; the network is built
non-strictly, so a host with host bits set is accepted (resolution
succeeds) and its host bits are masked off. -/
theorem C10_subnet_normalization (H1 H2 mask : List Char) (h1 h2 p : Nat)
    (e1 : parseIPv4 H1 = some h1) (e2 : parseIPv4 H2 = some h2)
    (em : makeNetmask mask = some p)
    (hsub : h1 &&& netmaskVal p = h2 &&& netmaskVal p) :
    resolveBroadcast H1 mask = .ok ((h1 &&& netmaskVal p) ||| hostmaskVal p) ∧
    resolveBroadcast H2 mask = .ok ((h2 &&& netmaskVal p) ||| hostmaskVal p) ∧
    resolveBroadcast H1 mask = resolveBroadcast H2 mask := by
  have hslash := makeNetmask_no_slash mask p em
  have q1 := resolveBroadcast_eval H1 mask h1 e1 hslash
  have q2 := resolveBroadcast_eval H2 mask h2 e2 hslash
  rw [em] at q1 q2
  simp only at q1 q2
  refine ⟨q1, q2, ?_⟩
  rw [q1, q2, hsub]

theorem C10_subnet_normalization_witness :
    makeNetmask "255.255.0.0".toList = some 16 ∧
    ((0x0A000007 : Nat) &&& netmaskVal 16) = ((0x0A00C809 : Nat) &&& netmaskVal 16) ∧
    resolveBroadcast "10.0.0.7".toList "255.255.0.0".toList
      = resolveBroadcast "10.0.200.9".toList "255.255.0.0".toList :=
  ⟨by decide, by decide,
   (C10_subnet_normalization "10.0.0.7".toList "10.0.200.9".toList
      "255.255.0.0".toList 0x0A000007 0x0A00C809 16
      (by decide) (by decide) (by decide) (by decide)).2.2⟩
